import Mathlib

/-!
Verification development for the counterfactual monorepo sources:
`packages/cf-wallet.js/src/provider.ts` (a request/response correlation
engine, event router, and app-instance registry built on a message
transport) and `src/instructions.ts` (protocol instruction schedules).

The provider is embedded shallowly: the mutable tables of the `Provider`
class become an explicit `ProviderState`, and the observable actions of a
run (promise settlements via `resolve`/`reject`, `eventEmitter.emit`
calls, and `nodeProvider.sendMessage` calls) are collected in an
`Effects` record.  Asynchrony is modelled by a small-step trace
semantics: each trace action is one atomic JavaScript turn (a call to
`callRawNodeMethod`, one `setTimeout` callback firing, or the delivery
of one inbound message to `onNodeMessage`).
-/

set_option maxHeartbeats 1000000

namespace CfMonorepo

/-! ## Association-list maps

JavaScript object-as-dictionary operations (`obj[k]`, `obj[k] = v`,
`delete obj[k]`, `k in obj`) over an association list. -/

def getKey {α β : Type} [DecidableEq α] : List (α × β) → α → Option β
  | [], _ => none
  | (k', v) :: l, k => if k' = k then some v else getKey l k

def delKey {α β : Type} [DecidableEq α] : List (α × β) → α → List (α × β)
  | [], _ => []
  | (k', v) :: l, k => if k' = k then delKey l k else (k', v) :: delKey l k

def setKey {α β : Type} [DecidableEq α] (l : List (α × β)) (k : α) (v : β) : List (α × β) :=
  (k, v) :: delKey l k

/-! ## Data model -/

/-- `Node.RpcMethodName`: the recognized node method names. -/
inductive MethodName
  | INSTALL
  | INSTALL_VIRTUAL
  | REJECT_INSTALL
  | CREATE_CHANNEL
  | DEPLOY_STATE_DEPOSIT_HOLDER
  | DEPOSIT
  | WITHDRAW
  | GET_FREE_BALANCE_STATE
  | GET_APP_INSTANCE_DETAILS
deriving DecidableEq, Repr

/-- `Node.EventName`: event names carried by uncorrelated node events
(business events beyond the three enriched ones are `other`). -/
inductive EventName
  | INSTALL
  | INSTALL_VIRTUAL
  | REJECT_INSTALL
  | other (s : String)
deriving DecidableEq, Repr

/-- The type tag found on a message (`message.result.type` for RPC-shaped
messages, `message.type` for plain events).  `error` is the single
`Node.ErrorType` value, which is also the string of `EventType.ERROR`. -/
inductive RType
  | method (m : MethodName)
  | error
  | event (e : EventName)
deriving DecidableEq, Repr

/-- Method-specific parameter objects, kept opaque. -/
abbrev Params := String

/-- The JSON-RPC request envelope built by `callRawNodeMethod`:
`{jsonrpc: "2.0", method, params, id}`. -/
structure Request where
  method : MethodName
  params : Params
  id : Nat
deriving DecidableEq, Repr

/-- The interpolated `message` strings placed into error payloads. -/
inductive ErrMessage
  | timedOut (request : Request)
  | unexpectedResponseType (expected : MethodName) (got : RType)
  | noInflightRequest (respId : Option Nat) (respType : RType)
deriving DecidableEq, Repr

/-- `AppInstanceInfo`: identityHash plus the remaining fields, opaque. -/
structure AppInstanceInfo where
  identityHash : String
  details : String
deriving DecidableEq, Repr

/-- The `AppInstance` record constructed by `new AppInstance(info, provider)`. -/
structure AppInstance where
  info : AppInstanceInfo
deriving DecidableEq, Repr

/-- The `data` / non-`type` fields of a message result or event payload. -/
inductive RData
  | appInstanceData (appInstance : AppInstanceInfo)
  | errorData (errorName : String) (message : Option ErrMessage)
  | installEventData (appInstanceId : String)
  | installVirtualEventData (appInstanceId : String)
  | rejectInstallEventData (appInstance : AppInstanceInfo)
  | other (raw : String)
deriving DecidableEq, Repr

/-- A message `result` (or a plain event body): `{type, ...}`. -/
structure NodeResult where
  rtype : RType
  data : RData
deriving DecidableEq, Repr

/-- A JSON-RPC-shaped message `{jsonrpc: "2.0", result, id?}`; `id = none`
models a notification without an `id` property. -/
structure JsonRpcMsg where
  id : Option Nat
  result : NodeResult
deriving DecidableEq, Repr

/-- The union `JsonRpcNotification | JsonRpcResponse | Node.Event` accepted
by `onNodeMessage`; a plain `Node.Event` is `{type: Node.EventName, data}`. -/
inductive InboundMessage
  | rpc (m : JsonRpcMsg)
  | plain (t : EventName) (data : RData)
deriving DecidableEq, Repr

/-- The value passed to a promise `reject`: either
`jsonRpcSerializeAsResponse(result, requestId)` or a bare object. -/
inductive RejectValue
  | response (result : NodeResult) (id : Nat)
  | plain (result : NodeResult)
deriving DecidableEq, Repr

/-- One invocation of a pending promise's `resolve` or `reject`. -/
inductive SettleValue
  | resolve (result : NodeResult)
  | reject (e : RejectValue)
deriving DecidableEq, Repr

/-- A value passed to `eventEmitter.emit(topic, value)`. -/
inductive EmitValue
  | result (r : NodeResult)
  | appEvent (t : RType) (appInstance : AppInstance)
deriving DecidableEq, Repr

/-- Who is awaiting a pending request's promise: a public caller of
`callRawNodeMethod`, or the suspended remainder of `handleInstallEvent`
or `handleInstallVirtualEvent` awaiting a details fetch issued by
`getOrCreateAppInstance`. -/
inductive Continuation
  | userCall
  | installCont (appInstanceId : String)
  | installVirtualCont (appInstanceId : String)
deriving DecidableEq, Repr

/-- What the closures stored in `requestListeners[requestId]` capture:
the requested method name, the serialized request (used by the timeout
callback's message), and the awaiting continuation. -/
structure PendingEntry where
  methodName : MethodName
  request : Request
  cont : Continuation
deriving DecidableEq, Repr

/-- Observable effects of one or more execution steps. -/
structure Effects where
  settles : List (Nat × SettleValue) := []
  emits : List (RType × EmitValue) := []
  sends : List Request := []
deriving DecidableEq, Repr

def Effects.append (a b : Effects) : Effects :=
  { settles := a.settles ++ b.settles
    emits := a.emits ++ b.emits
    sends := a.sends ++ b.sends }

instance : Append Effects := ⟨Effects.append⟩

/-- The mutable fields of the `Provider` class. -/
structure ProviderState where
  requestListeners : List (Nat × PendingEntry) := []
  appInstances : List (String × AppInstance) := []
deriving DecidableEq, Repr

/-! ## provider.ts -/

/-- Milliseconds until a method request to the Node is considered timed out. -/
def NODE_REQUEST_TIMEOUT : Nat := 30000

/-- The listener closure that `callRawNodeMethod` stores in
`requestListeners[requestId]`: on an error-typed result it rejects with
the result retagged as `EventType.ERROR` and serialized as a response;
on a result whose type differs from the requested method it rejects with
an `unexpected_message_type` error; otherwise it resolves with the result. -/
def requestListener (methodName : MethodName) (requestId : Nat)
    (response : JsonRpcMsg) : SettleValue :=
  if response.result.rtype = RType.error then
    SettleValue.reject (RejectValue.response
      { rtype := RType.error, data := response.result.data } requestId)
  else if response.result.rtype ≠ RType.method methodName then
    SettleValue.reject (RejectValue.response
      { rtype := RType.error
        data := RData.errorData "unexpected_message_type"
          (some (ErrMessage.unexpectedResponseType methodName response.result.rtype)) }
      requestId)
  else
    SettleValue.resolve response.result

/-- Result of `getOrCreateAppInstance` up to its first await point:
either it completes synchronously, or it must fetch the details of
`appInstanceId` from the node before resuming. -/
inductive GetOrCreateResult
  | done (appInstances : List (String × AppInstance)) (app : AppInstance)
  | needFetch (appInstanceId : String)
deriving DecidableEq, Repr

/-- `getOrCreateAppInstance(id, info?)`: a cached id returns the cached
record; an uncached id with supplied info builds and caches from the
info; an uncached id without info must fetch details from the node. -/
def getOrCreateAppInstance (appInstances : List (String × AppInstance))
    (id : String) (info : Option AppInstanceInfo) : GetOrCreateResult :=
  match getKey appInstances id with
  | some app => GetOrCreateResult.done appInstances app
  | none =>
    match info with
    | some newInfo =>
      GetOrCreateResult.done (setKey appInstances id (AppInstance.mk newInfo))
        (AppInstance.mk newInfo)
    | none => GetOrCreateResult.needFetch id

/-- Remainder of `getOrCreateAppInstance` after its awaited
`GET_APP_INSTANCE_DETAILS` call resolves: cache `new AppInstance(newInfo)`
under `id` and return `appInstances[id]`. -/
def getOrCreateAppInstanceResume (appInstances : List (String × AppInstance))
    (id : String) (newInfo : AppInstanceInfo) :
    List (String × AppInstance) × AppInstance :=
  (setKey appInstances id (AppInstance.mk newInfo), AppInstance.mk newInfo)

/-- Run the continuation awaiting a settled promise.  A resolved details
fetch resumes `getOrCreateAppInstance` and then the suspended install or
install-virtual handler, which emits its enriched event; a rejected
fetch aborts the handler; a public caller's continuation is outside this
core. -/
def runContinuation (st : ProviderState) (c : Continuation) (v : SettleValue) :
    ProviderState × Effects :=
  match c, v with
  | Continuation.installCont appInstanceId, SettleValue.resolve result =>
    match result.data with
    | RData.appInstanceData newInfo =>
      let r := getOrCreateAppInstanceResume st.appInstances appInstanceId newInfo
      ({ st with appInstances := r.1 },
       { emits := [(RType.event EventName.INSTALL,
          EmitValue.appEvent (RType.event EventName.INSTALL) r.2)] })
    | _ => (st, {})
  | Continuation.installVirtualCont appInstanceId, SettleValue.resolve result =>
    match result.data with
    | RData.appInstanceData newInfo =>
      let r := getOrCreateAppInstanceResume st.appInstances appInstanceId newInfo
      ({ st with appInstances := r.1 },
       { emits := [(RType.event EventName.INSTALL_VIRTUAL,
          EmitValue.appEvent (RType.event EventName.INSTALL_VIRTUAL) r.2)] })
    | _ => (st, {})
  | _, _ => (st, {})

/-- `handleNodeError`: if the message's id is truthy and a listener is
registered under it, invoke that listener (settling its promise) and
delete the entry; in every case emit the error result on the emitter
under its own type tag. -/
def handleNodeError (st : ProviderState) (error : JsonRpcMsg) :
    ProviderState × Effects :=
  let settled : ProviderState × Effects :=
    match error.id with
    | some requestId =>
      if requestId ≠ 0 then
        match getKey st.requestListeners requestId with
        | some entry =>
          let v := requestListener entry.methodName requestId error
          let st' := { st with requestListeners := delKey st.requestListeners requestId }
          let k := runContinuation st' entry.cont v
          (k.1, Effects.append { settles := [(requestId, v)] } k.2)
        | none => (st, {})
      else (st, {})
    | none => (st, {})
  (settled.1, Effects.append settled.2
    { emits := [(error.result.rtype, EmitValue.result error.result)] })

/-- `handleNodeMethodResponse`: if a listener is registered under the
response id, invoke it (settling its promise) and delete the entry;
otherwise synthesize an `orphaned_response` error and emit it. -/
def handleNodeMethodResponse (st : ProviderState) (response : JsonRpcMsg) :
    ProviderState × Effects :=
  match response.id with
  | some id =>
    match getKey st.requestListeners id with
    | some entry =>
      let v := requestListener entry.methodName id response
      let st' := { st with requestListeners := delKey st.requestListeners id }
      let k := runContinuation st' entry.cont v
      (k.1, Effects.append { settles := [(id, v)] } k.2)
    | none =>
      (st, { emits := [(RType.error, EmitValue.result
        { rtype := RType.error
          data := RData.errorData "orphaned_response"
            (some (ErrMessage.noInflightRequest response.id response.result.rtype)) })] })
  | none => (st, {})

/-- `callRawNodeMethod` up to its return: deserialize the request; if the
method name does not resolve, divert to `handleNodeError` with a
synthetic `unexpected_event_type` error (registering nothing and sending
nothing); otherwise register the listener under the fresh request id,
arm the timeout, and send the serialized request.  The resolved method
name is passed as `methodName : Option MethodName` (`none` models
`!request.methodName`). -/
def callRawNodeMethod (st : ProviderState) (methodName : Option MethodName)
    (params : Params) (requestId : Nat) (cont : Continuation) :
    ProviderState × Effects :=
  match methodName with
  | none =>
    handleNodeError st
      { id := some requestId
        result := { rtype := RType.error
                    data := RData.errorData "unexpected_event_type" none } }
  | some m =>
    let request : Request := { method := m, params := params, id := requestId }
    let entry : PendingEntry := { methodName := m, request := request, cont := cont }
    ({ st with requestListeners := setKey st.requestListeners requestId entry },
     { sends := [request] })

/-- The `setTimeout` callback armed by `callRawNodeMethod` firing after
`NODE_REQUEST_TIMEOUT` ms: if the entry is still present, reject with a
`request_timeout` error carrying the stringified original request and
delete the entry; otherwise do nothing. -/
def requestTimeoutFire (st : ProviderState) (requestId : Nat) :
    ProviderState × Effects :=
  match getKey st.requestListeners requestId with
  | some entry =>
    ({ st with requestListeners := delKey st.requestListeners requestId },
     { settles := [(requestId, SettleValue.reject (RejectValue.plain
        { rtype := RType.error
          data := RData.errorData "request_timeout"
            (some (ErrMessage.timedOut entry.request)) }))] })
  | none => (st, {})

/-- `handleGenericEvent`: republish the node event verbatim under its type. -/
def handleGenericEvent (st : ProviderState) (t : RType) (data : RData) :
    ProviderState × Effects :=
  (st, { emits := [(t, EmitValue.result { rtype := t, data := data })] })

/-- `handleInstallEvent`: resolve the embedded `appInstanceId` through the
registry (issuing a `GET_APP_INSTANCE_DETAILS` call when uncached,
suspending until it settles) and republish a typed INSTALL event with
the resolved record. -/
def handleInstallEvent (st : ProviderState) (freshRequestId : Nat) (data : RData) :
    ProviderState × Effects :=
  match data with
  | RData.installEventData appInstanceId =>
    match getOrCreateAppInstance st.appInstances appInstanceId none with
    | GetOrCreateResult.done apps app =>
      ({ st with appInstances := apps },
       { emits := [(RType.event EventName.INSTALL,
          EmitValue.appEvent (RType.event EventName.INSTALL) app)] })
    | GetOrCreateResult.needFetch id =>
      callRawNodeMethod st (some MethodName.GET_APP_INSTANCE_DETAILS) id
        freshRequestId (Continuation.installCont id)
  | _ => (st, {})

/-- `handleInstallVirtualEvent`: as `handleInstallEvent`, but the id sits
one level deeper, under `nodeEvent.data["params"]`. -/
def handleInstallVirtualEvent (st : ProviderState) (freshRequestId : Nat)
    (data : RData) : ProviderState × Effects :=
  match data with
  | RData.installVirtualEventData appInstanceId =>
    match getOrCreateAppInstance st.appInstances appInstanceId none with
    | GetOrCreateResult.done apps app =>
      ({ st with appInstances := apps },
       { emits := [(RType.event EventName.INSTALL_VIRTUAL,
          EmitValue.appEvent (RType.event EventName.INSTALL_VIRTUAL) app)] })
    | GetOrCreateResult.needFetch id =>
      callRawNodeMethod st (some MethodName.GET_APP_INSTANCE_DETAILS) id
        freshRequestId (Continuation.installVirtualCont id)
  | _ => (st, {})

/-- `handleRejectInstallEvent`: the payload already carries the full
instance details; register via get-or-create keyed by `identityHash`
with the supplied details and republish a typed REJECT_INSTALL event. -/
def handleRejectInstallEvent (st : ProviderState) (data : RData) :
    ProviderState × Effects :=
  match data with
  | RData.rejectInstallEventData info =>
    match getOrCreateAppInstance st.appInstances info.identityHash (some info) with
    | GetOrCreateResult.done apps app =>
      ({ st with appInstances := apps },
       { emits := [(RType.event EventName.REJECT_INSTALL,
          EmitValue.appEvent (RType.event EventName.REJECT_INSTALL) app)] })
    | GetOrCreateResult.needFetch _ => (st, {})
  | _ => (st, {})

/-- `handleNodeEvent`: switch on the event type; the three install-related
events are enriched, everything else passes through verbatim. -/
def handleNodeEvent (st : ProviderState) (freshRequestId : Nat) (t : RType)
    (data : RData) : ProviderState × Effects :=
  match t with
  | RType.event EventName.REJECT_INSTALL => handleRejectInstallEvent st data
  | RType.event EventName.INSTALL => handleInstallEvent st freshRequestId data
  | RType.event EventName.INSTALL_VIRTUAL => handleInstallVirtualEvent st freshRequestId data
  | _ => handleGenericEvent st t data

/-- `onNodeMessage`: extract the type tag (under `result` for RPC-shaped
messages, direct for plain events); an error tag goes to error handling,
a message with an id to response handling, everything else to event
dispatch.  `freshRequestId` is the wall-clock request id that an
enrichment-triggered details fetch would receive. -/
def onNodeMessage (st : ProviderState) (freshRequestId : Nat)
    (message : InboundMessage) : ProviderState × Effects :=
  match message with
  | InboundMessage.plain t data => handleNodeEvent st freshRequestId (RType.event t) data
  | InboundMessage.rpc m =>
    if m.result.rtype = RType.error then
      handleNodeError st m
    else
      match m.id with
      | some _ => handleNodeMethodResponse st m
      | none => handleNodeEvent st freshRequestId m.result.rtype m.result.data

/-! ## instructions.ts -/

/-- The atomic protocol instruction opcodes. -/
inductive Instruction
  | STATE_TRANSITION_PROPOSE
  | STATE_TRANSITION_COMMIT
  | OP_GENERATE
  | OP_SIGN
  | OP_SIGN_VALIDATE
  | IO_PREPARE_SEND
  | IO_SEND
  | IO_WAIT
  | KEY_GENERATE
  | ALL
deriving DecidableEq, Repr

/-- The four protocol kinds indexing the schedule tables. -/
inductive ProtocolKind
  | setup
  | install
  | uninstall
  | update
deriving DecidableEq, Repr, Fintype

/-- Instructions executed on the initiating end of a protocol. -/
def Instructions : ProtocolKind → List Instruction
  | ProtocolKind.update =>
    [Instruction.STATE_TRANSITION_PROPOSE,
     Instruction.OP_GENERATE,
     Instruction.OP_SIGN,
     Instruction.IO_PREPARE_SEND,
     Instruction.IO_SEND,
     Instruction.IO_WAIT,
     Instruction.OP_SIGN_VALIDATE,
     Instruction.STATE_TRANSITION_COMMIT]
  | ProtocolKind.setup =>
    [Instruction.STATE_TRANSITION_PROPOSE,
     Instruction.OP_GENERATE,
     Instruction.OP_SIGN,
     Instruction.IO_PREPARE_SEND,
     Instruction.IO_SEND,
     Instruction.IO_WAIT,
     Instruction.OP_SIGN_VALIDATE,
     Instruction.STATE_TRANSITION_COMMIT]
  | ProtocolKind.install =>
    [Instruction.KEY_GENERATE,
     Instruction.IO_PREPARE_SEND,
     Instruction.IO_SEND,
     Instruction.IO_WAIT,
     Instruction.STATE_TRANSITION_PROPOSE,
     Instruction.OP_GENERATE,
     Instruction.OP_SIGN_VALIDATE,
     Instruction.OP_SIGN,
     Instruction.IO_PREPARE_SEND,
     Instruction.IO_SEND,
     Instruction.STATE_TRANSITION_COMMIT]
  | ProtocolKind.uninstall =>
    [Instruction.STATE_TRANSITION_PROPOSE,
     Instruction.OP_GENERATE,
     Instruction.OP_SIGN,
     Instruction.IO_PREPARE_SEND,
     Instruction.IO_SEND,
     Instruction.IO_WAIT,
     Instruction.OP_SIGN_VALIDATE,
     Instruction.STATE_TRANSITION_COMMIT]

/-- Instructions executed on the receiving end of a protocol. -/
def AckInstructions : ProtocolKind → List Instruction
  | ProtocolKind.update =>
    [Instruction.STATE_TRANSITION_PROPOSE,
     Instruction.OP_GENERATE,
     Instruction.OP_SIGN_VALIDATE,
     Instruction.OP_SIGN,
     Instruction.IO_PREPARE_SEND,
     Instruction.IO_SEND,
     Instruction.STATE_TRANSITION_COMMIT]
  | ProtocolKind.setup =>
    [Instruction.STATE_TRANSITION_PROPOSE,
     Instruction.OP_GENERATE,
     Instruction.OP_SIGN_VALIDATE,
     Instruction.OP_SIGN,
     Instruction.IO_PREPARE_SEND,
     Instruction.IO_SEND,
     Instruction.STATE_TRANSITION_COMMIT]
  | ProtocolKind.install =>
    [Instruction.KEY_GENERATE,
     Instruction.STATE_TRANSITION_PROPOSE,
     Instruction.OP_GENERATE,
     Instruction.OP_SIGN,
     Instruction.IO_PREPARE_SEND,
     Instruction.IO_SEND,
     Instruction.IO_WAIT,
     Instruction.OP_SIGN_VALIDATE,
     Instruction.STATE_TRANSITION_COMMIT]
  | ProtocolKind.uninstall =>
    [Instruction.STATE_TRANSITION_PROPOSE,
     Instruction.OP_GENERATE,
     Instruction.OP_SIGN_VALIDATE,
     Instruction.OP_SIGN,
     Instruction.IO_PREPARE_SEND,
     Instruction.IO_SEND,
     Instruction.STATE_TRANSITION_COMMIT]

/-! ## Trace semantics -/

/-- One atomic execution turn: a call to `callRawNodeMethod` (with the
wall-clock request id and the resolved method name as inputs), one armed
timeout callback firing, or delivery of one inbound message. -/
inductive Action
  | call (methodName : Option MethodName) (params : Params) (requestId : Nat)
  | timeoutFire (requestId : Nat)
  | deliver (freshRequestId : Nat) (message : InboundMessage)
deriving DecidableEq, Repr

def step (st : ProviderState) : Action → ProviderState × Effects
  | Action.call m p rid => callRawNodeMethod st m p rid Continuation.userCall
  | Action.timeoutFire rid => requestTimeoutFire st rid
  | Action.deliver fresh msg => onNodeMessage st fresh msg

def run (st : ProviderState) : List Action → ProviderState × Effects
  | [] => (st, {})
  | a :: tr =>
    let s1 := step st a
    let s2 := run s1.1 tr
    (s2.1, Effects.append s1.2 s2.2)

/-- Number of settlements recorded for request id `rid`. -/
def settlesFor (e : Effects) (rid : Nat) : Nat :=
  (e.settles.filter (fun p => p.1 = rid)).length

/-- Whether an action registers a fresh pending entry under `rid`: a
successfully issued call with that request id, or a delivery whose
enrichment fetch would be issued under that wall-clock id.  Distinct
wall-clock ids per call make these never reuse a live id. -/
def ridIntro (rid : Nat) : Action → Bool
  | Action.call (some _) _ r => r = rid
  | Action.deliver fresh _ => fresh = rid
  | _ => false

/-! ## Map lemmas -/

theorem getKey_delKey_self {α β : Type} [DecidableEq α] (l : List (α × β)) (k : α) :
    getKey (delKey l k) k = none := by
  induction l with
  | nil => rfl
  | cons p l ih =>
    obtain ⟨a, b⟩ := p
    simp only [delKey]
    by_cases hak : a = k
    · rw [if_pos hak]; exact ih
    · rw [if_neg hak]; simp only [getKey]; rw [if_neg hak]; exact ih

theorem getKey_delKey_ne {α β : Type} [DecidableEq α] (l : List (α × β)) (k k' : α)
    (h : k' ≠ k) : getKey (delKey l k) k' = getKey l k' := by
  induction l with
  | nil => rfl
  | cons p l ih =>
    obtain ⟨a, b⟩ := p
    simp only [delKey, getKey]
    by_cases hak : a = k
    · rw [if_pos hak, ih, if_neg (fun hh : a = k' => h (hh.symm.trans hak))]
    · rw [if_neg hak]
      simp only [getKey]
      by_cases hab : a = k'
      · rw [if_pos hab, if_pos hab]
      · rw [if_neg hab, if_neg hab]; exact ih

theorem getKey_setKey_self {α β : Type} [DecidableEq α] (l : List (α × β)) (k : α) (v : β) :
    getKey (setKey l k v) k = some v := by
  simp [setKey, getKey]

theorem getKey_setKey_ne {α β : Type} [DecidableEq α] (l : List (α × β)) (k k' : α) (v : β)
    (h : k' ≠ k) : getKey (setKey l k v) k' = getKey l k' := by
  simp only [setKey, getKey]
  rw [if_neg (fun hh => h hh.symm)]
  exact getKey_delKey_ne l k k' h

/-! ## Effects lemmas -/

theorem Effects.append_settles (a b : Effects) :
    (Effects.append a b).settles = a.settles ++ b.settles := rfl

theorem Effects.append_emits (a b : Effects) :
    (Effects.append a b).emits = a.emits ++ b.emits := rfl

theorem Effects.append_sends (a b : Effects) :
    (Effects.append a b).sends = a.sends ++ b.sends := rfl

theorem settlesFor_append (e1 e2 : Effects) (rid : Nat) :
    settlesFor (Effects.append e1 e2) rid = settlesFor e1 rid + settlesFor e2 rid := by
  simp [settlesFor, Effects.append]

theorem settlesFor_empty (rid : Nat) : settlesFor {} rid = 0 := rfl

theorem settlesFor_single (r : Nat) (v : SettleValue) (rid : Nat) :
    settlesFor { settles := [(r, v)] } rid = if r = rid then 1 else 0 := by
  by_cases h : r = rid <;> simp [settlesFor, h]

/-! ## Handler characterization lemmas -/

theorem runContinuation_requestListeners (st : ProviderState) (c : Continuation)
    (v : SettleValue) : (runContinuation st c v).1.requestListeners = st.requestListeners := by
  cases c <;> cases v <;> simp only [runContinuation] <;> try rfl
  all_goals (split <;> rfl)

theorem runContinuation_settles (st : ProviderState) (c : Continuation) (v : SettleValue) :
    (runContinuation st c v).2.settles = [] := by
  cases c <;> cases v <;> simp only [runContinuation] <;> try rfl
  all_goals (split <;> rfl)

theorem runContinuation_sends (st : ProviderState) (c : Continuation) (v : SettleValue) :
    (runContinuation st c v).2.sends = [] := by
  cases c <;> cases v <;> simp only [runContinuation] <;> try rfl
  all_goals (split <;> rfl)

theorem runContinuation_reject (st : ProviderState) (c : Continuation) (e : RejectValue) :
    runContinuation st c (SettleValue.reject e) = (st, {}) := by
  cases c <;> rfl

theorem handleNodeError_hit (st : ProviderState) (m : JsonRpcMsg) (rid : Nat)
    (e : PendingEntry) (h1 : m.id = some rid) (h2 : rid ≠ 0)
    (h3 : getKey st.requestListeners rid = some e) :
    handleNodeError st m =
      ((runContinuation { st with requestListeners := delKey st.requestListeners rid }
          e.cont (requestListener e.methodName rid m)).1,
       Effects.append (Effects.append
          { settles := [(rid, requestListener e.methodName rid m)] }
          (runContinuation { st with requestListeners := delKey st.requestListeners rid }
            e.cont (requestListener e.methodName rid m)).2)
         { emits := [(m.result.rtype, EmitValue.result m.result)] }) := by
  simp [handleNodeError, h1, h2, h3]

theorem handleNodeError_miss (st : ProviderState) (m : JsonRpcMsg)
    (h : ∀ rid, m.id = some rid → rid ≠ 0 → getKey st.requestListeners rid = none) :
    handleNodeError st m =
      (st, { emits := [(m.result.rtype, EmitValue.result m.result)] }) := by
  unfold handleNodeError
  cases hid : m.id with
  | none => simp [Effects.append]
  | some rid =>
    by_cases h2 : rid = 0
    · simp [h2, Effects.append]
    · have h3 := h rid hid h2
      simp [h2, h3, Effects.append]

theorem handleNodeMethodResponse_hit (st : ProviderState) (response : JsonRpcMsg)
    (rid : Nat) (e : PendingEntry) (h1 : response.id = some rid)
    (h3 : getKey st.requestListeners rid = some e) :
    handleNodeMethodResponse st response =
      ((runContinuation { st with requestListeners := delKey st.requestListeners rid }
          e.cont (requestListener e.methodName rid response)).1,
       Effects.append { settles := [(rid, requestListener e.methodName rid response)] }
         (runContinuation { st with requestListeners := delKey st.requestListeners rid }
           e.cont (requestListener e.methodName rid response)).2) := by
  simp [handleNodeMethodResponse, h1, h3]

theorem handleNodeMethodResponse_orphan (st : ProviderState) (response : JsonRpcMsg)
    (rid : Nat) (h1 : response.id = some rid)
    (h3 : getKey st.requestListeners rid = none) :
    handleNodeMethodResponse st response =
      (st, { emits := [(RType.error, EmitValue.result
        { rtype := RType.error
          data := RData.errorData "orphaned_response"
            (some (ErrMessage.noInflightRequest response.id response.result.rtype)) })] }) := by
  simp [handleNodeMethodResponse, h1, h3]

theorem handleRejectInstallEvent_requestListeners (st : ProviderState) (d : RData) :
    (handleRejectInstallEvent st d).1.requestListeners = st.requestListeners := by
  cases d <;> simp only [handleRejectInstallEvent] <;> try rfl
  split <;> rfl

theorem handleRejectInstallEvent_settles (st : ProviderState) (d : RData) :
    (handleRejectInstallEvent st d).2.settles = [] := by
  cases d <;> simp only [handleRejectInstallEvent] <;> try rfl
  split <;> rfl

theorem handleInstallEvent_getKey (st : ProviderState) (fresh : Nat) (d : RData)
    (r : Nat) (hr : r ≠ fresh) :
    getKey (handleInstallEvent st fresh d).1.requestListeners r
      = getKey st.requestListeners r := by
  cases d <;> simp only [handleInstallEvent] <;> try rfl
  split
  · rfl
  · simp only [callRawNodeMethod]
    exact getKey_setKey_ne _ _ _ _ hr

theorem handleInstallEvent_settles (st : ProviderState) (fresh : Nat) (d : RData) :
    (handleInstallEvent st fresh d).2.settles = [] := by
  cases d <;> simp only [handleInstallEvent] <;> try rfl
  split <;> rfl

theorem handleInstallVirtualEvent_getKey (st : ProviderState) (fresh : Nat) (d : RData)
    (r : Nat) (hr : r ≠ fresh) :
    getKey (handleInstallVirtualEvent st fresh d).1.requestListeners r
      = getKey st.requestListeners r := by
  cases d <;> simp only [handleInstallVirtualEvent] <;> try rfl
  split
  · rfl
  · simp only [callRawNodeMethod]
    exact getKey_setKey_ne _ _ _ _ hr

theorem handleInstallVirtualEvent_settles (st : ProviderState) (fresh : Nat) (d : RData) :
    (handleInstallVirtualEvent st fresh d).2.settles = [] := by
  cases d <;> simp only [handleInstallVirtualEvent] <;> try rfl
  split <;> rfl

theorem handleNodeEvent_getKey (st : ProviderState) (fresh : Nat) (t : RType)
    (d : RData) (r : Nat) (hr : r ≠ fresh) :
    getKey (handleNodeEvent st fresh t d).1.requestListeners r
      = getKey st.requestListeners r := by
  unfold handleNodeEvent
  split
  · rw [handleRejectInstallEvent_requestListeners]
  · exact handleInstallEvent_getKey st fresh d r hr
  · exact handleInstallVirtualEvent_getKey st fresh d r hr
  · rfl

theorem handleNodeEvent_settles (st : ProviderState) (fresh : Nat) (t : RType) (d : RData) :
    (handleNodeEvent st fresh t d).2.settles = [] := by
  unfold handleNodeEvent
  split
  · exact handleRejectInstallEvent_settles st d
  · exact handleInstallEvent_settles st fresh d
  · exact handleInstallVirtualEvent_settles st fresh d
  · rfl

theorem settlesFor_of_settles_nil (e : Effects) (rid : Nat) (h : e.settles = []) :
    settlesFor e rid = 0 := by
  simp [settlesFor, h]

/-! ## The per-step settlement dichotomy

Every execution turn either leaves the pending entry for a request id
untouched and settles nothing for it, or observes the live entry,
removes it, and settles it exactly once.  This is the formal content of
"removal from the pending table is the sole double-settle guard". -/

theorem handleNodeError_dichotomy (st : ProviderState) (m : JsonRpcMsg) (rid : Nat) :
    (getKey (handleNodeError st m).1.requestListeners rid = getKey st.requestListeners rid
      ∧ settlesFor (handleNodeError st m).2 rid = 0)
    ∨ (∃ e, getKey st.requestListeners rid = some e
      ∧ getKey (handleNodeError st m).1.requestListeners rid = none
      ∧ settlesFor (handleNodeError st m).2 rid = 1) := by
  cases hid : m.id with
  | none =>
    left
    rw [handleNodeError_miss st m (fun r hr _ => by rw [hid] at hr; cases hr)]
    exact ⟨rfl, rfl⟩
  | some r =>
    by_cases h2 : r = 0
    · left
      have hmiss : handleNodeError st m
          = (st, { emits := [(m.result.rtype, EmitValue.result m.result)] }) := by
        apply handleNodeError_miss
        intro r' hr h0
        rw [hid] at hr
        injection hr with hh
        exact absurd (hh ▸ h2) h0
      rw [hmiss]
      exact ⟨rfl, rfl⟩
    · cases h3 : getKey st.requestListeners r with
      | none =>
        left
        have hmiss : handleNodeError st m
            = (st, { emits := [(m.result.rtype, EmitValue.result m.result)] }) := by
          apply handleNodeError_miss
          intro r' hr _
          rw [hid] at hr
          injection hr with hh
          exact hh ▸ h3
        rw [hmiss]
        exact ⟨rfl, rfl⟩
      | some e =>
        have hhit := handleNodeError_hit st m r e hid h2 h3
        by_cases hrr : r = rid
        · subst hrr
          right
          refine ⟨e, h3, ?_, ?_⟩
          · rw [hhit, runContinuation_requestListeners]
            exact getKey_delKey_self _ _
          · rw [hhit]
            simp [settlesFor, Effects.append, runContinuation_settles]
        · left
          constructor
          · rw [hhit, runContinuation_requestListeners]
            exact getKey_delKey_ne _ _ _ (fun hh => hrr hh.symm)
          · rw [hhit]
            simp [settlesFor, Effects.append, runContinuation_settles, hrr]

theorem handleNodeMethodResponse_dichotomy (st : ProviderState) (m : JsonRpcMsg) (rid : Nat) :
    (getKey (handleNodeMethodResponse st m).1.requestListeners rid
        = getKey st.requestListeners rid
      ∧ settlesFor (handleNodeMethodResponse st m).2 rid = 0)
    ∨ (∃ e, getKey st.requestListeners rid = some e
      ∧ getKey (handleNodeMethodResponse st m).1.requestListeners rid = none
      ∧ settlesFor (handleNodeMethodResponse st m).2 rid = 1) := by
  cases hid : m.id with
  | none =>
    left
    refine ⟨?_, ?_⟩ <;> simp [handleNodeMethodResponse, hid, settlesFor]
  | some r =>
    cases h3 : getKey st.requestListeners r with
    | none =>
      left
      rw [handleNodeMethodResponse_orphan st m r hid h3]
      exact ⟨rfl, rfl⟩
    | some e =>
      have hhit := handleNodeMethodResponse_hit st m r e hid h3
      by_cases hrr : r = rid
      · subst hrr
        right
        refine ⟨e, h3, ?_, ?_⟩
        · rw [hhit, runContinuation_requestListeners]
          exact getKey_delKey_self _ _
        · rw [hhit]
          simp [settlesFor, Effects.append, runContinuation_settles]
      · left
        constructor
        · rw [hhit, runContinuation_requestListeners]
          exact getKey_delKey_ne _ _ _ (fun hh => hrr hh.symm)
        · rw [hhit]
          simp [settlesFor, Effects.append, runContinuation_settles, hrr]

theorem step_rid_dichotomy (st : ProviderState) (a : Action) (rid : Nat)
    (ha : ridIntro rid a = false) :
    (getKey (step st a).1.requestListeners rid = getKey st.requestListeners rid
      ∧ settlesFor (step st a).2 rid = 0)
    ∨ (∃ e, getKey st.requestListeners rid = some e
      ∧ getKey (step st a).1.requestListeners rid = none
      ∧ settlesFor (step st a).2 rid = 1) := by
  cases a with
  | call mo p r =>
    cases mo with
    | some m =>
      left
      have hr : ¬ r = rid := by simpa [ridIntro] using ha
      constructor
      · simp only [step, callRawNodeMethod]
        exact getKey_setKey_ne _ _ _ _ (fun hh => hr hh.symm)
      · rfl
    | none =>
      simp only [step, callRawNodeMethod]
      exact handleNodeError_dichotomy st _ rid
  | timeoutFire r =>
    cases h3 : getKey st.requestListeners r with
    | none =>
      left
      refine ⟨?_, ?_⟩ <;> simp [step, requestTimeoutFire, h3, settlesFor]
    | some e =>
      by_cases hrr : r = rid
      · subst hrr
        right
        refine ⟨e, h3, ?_, ?_⟩
        · simp only [step, requestTimeoutFire, h3]
          exact getKey_delKey_self _ _
        · simp [step, requestTimeoutFire, h3, settlesFor]
      · left
        constructor
        · simp only [step, requestTimeoutFire, h3]
          exact getKey_delKey_ne _ _ _ (fun hh => hrr hh.symm)
        · simp [step, requestTimeoutFire, h3, settlesFor, hrr]
  | deliver fresh msg =>
    have hfr : ¬ fresh = rid := by simpa [ridIntro] using ha
    cases msg with
    | plain t d =>
      left
      simp only [step, onNodeMessage]
      exact ⟨handleNodeEvent_getKey _ _ _ _ _ (fun hh => hfr hh.symm),
        settlesFor_of_settles_nil _ _ (handleNodeEvent_settles _ _ _ _)⟩
    | rpc m =>
      simp only [step, onNodeMessage]
      by_cases herr : m.result.rtype = RType.error
      · rw [if_pos herr]
        exact handleNodeError_dichotomy st m rid
      · rw [if_neg herr]
        cases hid : m.id with
        | none =>
          left
          simp only [hid]
          exact ⟨handleNodeEvent_getKey _ _ _ _ _ (fun hh => hfr hh.symm),
            settlesFor_of_settles_nil _ _ (handleNodeEvent_settles _ _ _ _)⟩
        | some i =>
          simp only [hid]
          exact handleNodeMethodResponse_dichotomy st m rid

/-! ## Trace invariants -/

/-- The exactly-once invariant for an issued call with request id `rid`
and registered entry `e0`: either the entry is still live and the call
has settled zero times, or the entry is gone and it settled exactly once. -/
def CallInv (rid : Nat) (e0 : PendingEntry) (st : ProviderState) (n : Nat) : Prop :=
  (getKey st.requestListeners rid = some e0 ∧ n = 0)
  ∨ (getKey st.requestListeners rid = none ∧ n = 1)

theorem step_CallInv {rid : Nat} {e0 : PendingEntry} {st : ProviderState} {n : Nat}
    {a : Action} (h : CallInv rid e0 st n) (ha : ridIntro rid a = false) :
    CallInv rid e0 (step st a).1 (n + settlesFor (step st a).2 rid) := by
  rcases step_rid_dichotomy st a rid ha with ⟨hkeep, hzero⟩ | ⟨e, hsome, hnone, hone⟩
  · rcases h with ⟨hs, hn⟩ | ⟨hs, hn⟩
    · exact Or.inl ⟨hkeep.trans hs, by omega⟩
    · exact Or.inr ⟨hkeep.trans hs, by omega⟩
  · rcases h with ⟨hs, hn⟩ | ⟨hs, hn⟩
    · exact Or.inr ⟨hnone, by omega⟩
    · rw [hs] at hsome; cases hsome

theorem run_CallInv {rid : Nat} {e0 : PendingEntry} {st : ProviderState} {n : Nat}
    (tr : List Action) (h : CallInv rid e0 st n)
    (ha : ∀ a ∈ tr, ridIntro rid a = false) :
    CallInv rid e0 (run st tr).1 (n + settlesFor (run st tr).2 rid) := by
  induction tr generalizing st n with
  | nil => simpa [run, settlesFor] using h
  | cons a tr ih =>
    have h1 := step_CallInv h (ha a (List.mem_cons_self a tr))
    have h2 := ih h1 (fun b hb => ha b (List.mem_cons_of_mem a hb))
    simp only [run, settlesFor_append]
    rw [← Nat.add_assoc]
    exact h2

theorem step_absent {rid : Nat} {st : ProviderState} {a : Action}
    (h : getKey st.requestListeners rid = none) (ha : ridIntro rid a = false) :
    getKey (step st a).1.requestListeners rid = none
      ∧ settlesFor (step st a).2 rid = 0 := by
  rcases step_rid_dichotomy st a rid ha with ⟨hkeep, hzero⟩ | ⟨e, hsome, _, _⟩
  · exact ⟨hkeep.trans h, hzero⟩
  · rw [h] at hsome; cases hsome

theorem run_absent {rid : Nat} {st : ProviderState} (tr : List Action)
    (h : getKey st.requestListeners rid = none)
    (ha : ∀ a ∈ tr, ridIntro rid a = false) :
    getKey (run st tr).1.requestListeners rid = none
      ∧ settlesFor (run st tr).2 rid = 0 := by
  induction tr generalizing st with
  | nil => simpa [run, settlesFor] using h
  | cons a tr ih =>
    have h1 := step_absent h (ha a (List.mem_cons_self a tr))
    have h2 := ih h1.1 (fun b hb => ha b (List.mem_cons_of_mem a hb))
    simp only [run, settlesFor_append]
    exact ⟨h2.1, by rw [h1.2, h2.2]⟩

theorem requestTimeoutFire_getKey_self (st : ProviderState) (rid : Nat) :
    getKey (requestTimeoutFire st rid).1.requestListeners rid = none := by
  cases h : getKey st.requestListeners rid with
  | none => simpa [requestTimeoutFire, h] using h
  | some e =>
    simp only [requestTimeoutFire, h]
    exact getKey_delKey_self _ _

theorem run_timeoutFire_mem {rid : Nat} {st : ProviderState} (tr : List Action)
    (h : Action.timeoutFire rid ∈ tr)
    (ha : ∀ a ∈ tr, ridIntro rid a = false) :
    getKey (run st tr).1.requestListeners rid = none := by
  induction tr generalizing st with
  | nil => cases h
  | cons a tr ih =>
    by_cases hat : Action.timeoutFire rid ∈ tr
    · exact ih hat (fun b hb => ha b (List.mem_cons_of_mem a hb))
    · have haeq : a = Action.timeoutFire rid := by
        rcases List.mem_cons.mp h with h1 | h1
        · exact h1.symm
        · exact absurd h1 hat
      subst haeq
      have h0 : getKey (step st (Action.timeoutFire rid)).1.requestListeners rid = none :=
        requestTimeoutFire_getKey_self st rid
      simp only [run]
      exact (run_absent tr h0 (fun b hb => ha b (List.mem_cons_of_mem _ hb))).1

/-! ## Registry key-uniqueness lemmas -/

theorem notMem_keys_delKey {α β : Type} [DecidableEq α] (l : List (α × β)) (k : α) :
    k ∉ (delKey l k).map Prod.fst := by
  induction l with
  | nil => simp [delKey]
  | cons p l ih =>
    obtain ⟨a, b⟩ := p
    simp only [delKey]
    by_cases hak : a = k
    · rw [if_pos hak]; exact ih
    · rw [if_neg hak]
      simp only [List.map_cons, List.mem_cons]
      rintro (h | h)
      · exact hak h.symm
      · exact ih h

theorem mem_keys_delKey {α β : Type} [DecidableEq α] {l : List (α × β)} {k x : α}
    (h : x ∈ (delKey l k).map Prod.fst) : x ∈ l.map Prod.fst := by
  induction l with
  | nil => simpa [delKey] using h
  | cons p l ih =>
    obtain ⟨a, b⟩ := p
    simp only [delKey] at h
    by_cases hak : a = k
    · rw [if_pos hak] at h
      exact List.mem_cons_of_mem a (ih h)
    · rw [if_neg hak] at h
      simp only [List.map_cons, List.mem_cons] at h ⊢
      rcases h with h | h
      · exact Or.inl h
      · exact Or.inr (ih h)

theorem keys_delKey_nodup {α β : Type} [DecidableEq α] (l : List (α × β)) (k : α)
    (h : (l.map Prod.fst).Nodup) : ((delKey l k).map Prod.fst).Nodup := by
  induction l with
  | nil => simp [delKey]
  | cons p l ih =>
    obtain ⟨a, b⟩ := p
    simp only [List.map_cons, List.nodup_cons] at h
    simp only [delKey]
    by_cases hak : a = k
    · rw [if_pos hak]; exact ih h.2
    · rw [if_neg hak]
      simp only [List.map_cons, List.nodup_cons]
      exact ⟨fun hmem => h.1 (mem_keys_delKey hmem), ih h.2⟩

theorem keys_setKey_nodup {α β : Type} [DecidableEq α] (l : List (α × β)) (k : α) (v : β)
    (h : (l.map Prod.fst).Nodup) : ((setKey l k v).map Prod.fst).Nodup := by
  simp only [setKey, List.map_cons, List.nodup_cons]
  exact ⟨notMem_keys_delKey l k, keys_delKey_nodup l k h⟩

/-! ## Claims about the instruction schedules -/

/-- C10: For each role, the schedules for setup, update, and uninstall are
the identical instruction sequence (8 steps for the initiator, 7 for the
acknowledger); install is the only protocol kind whose schedule differs,
and no schedule of either role contains the ALL instruction. -/
theorem schedules_identical_except_install :
    Instructions ProtocolKind.setup = Instructions ProtocolKind.update
    ∧ Instructions ProtocolKind.setup = Instructions ProtocolKind.uninstall
    ∧ (Instructions ProtocolKind.setup).length = 8
    ∧ AckInstructions ProtocolKind.setup = AckInstructions ProtocolKind.update
    ∧ AckInstructions ProtocolKind.setup = AckInstructions ProtocolKind.uninstall
    ∧ (AckInstructions ProtocolKind.setup).length = 7
    ∧ Instructions ProtocolKind.install ≠ Instructions ProtocolKind.setup
    ∧ AckInstructions ProtocolKind.install ≠ AckInstructions ProtocolKind.setup
    ∧ ∀ k, Instruction.ALL ∉ Instructions k ∧ Instruction.ALL ∉ AckInstructions k := by
  decide

/-- C8 counterexample: for the install protocol kind the claimed role
asymmetry fails on every count: the acknowledger install schedule
contains IO_WAIT, it places OP_SIGN before OP_SIGN_VALIDATE, and the
initiator install schedule places OP_SIGN_VALIDATE before OP_SIGN. -/
theorem install_schedules_break_role_asymmetry :
    Instruction.IO_WAIT ∈ AckInstructions ProtocolKind.install
    ∧ (AckInstructions ProtocolKind.install).indexOf Instruction.OP_SIGN
        < (AckInstructions ProtocolKind.install).indexOf Instruction.OP_SIGN_VALIDATE
    ∧ (Instructions ProtocolKind.install).indexOf Instruction.OP_SIGN_VALIDATE
        < (Instructions ProtocolKind.install).indexOf Instruction.OP_SIGN := by
  decide

/-- C8 (amended): for every protocol kind other than install, the
acknowledger schedule contains no IO_WAIT step and places
OP_SIGN_VALIDATE before OP_SIGN, while the initiator schedule places
OP_SIGN before OP_SIGN_VALIDATE. -/
theorem schedules_role_asymmetry_except_install (k : ProtocolKind)
    (hk : k ≠ ProtocolKind.install) :
    Instruction.IO_WAIT ∉ AckInstructions k
    ∧ Instruction.OP_SIGN_VALIDATE ∈ AckInstructions k
    ∧ Instruction.OP_SIGN ∈ AckInstructions k
    ∧ (AckInstructions k).indexOf Instruction.OP_SIGN_VALIDATE
        < (AckInstructions k).indexOf Instruction.OP_SIGN
    ∧ Instruction.OP_SIGN ∈ Instructions k
    ∧ Instruction.OP_SIGN_VALIDATE ∈ Instructions k
    ∧ (Instructions k).indexOf Instruction.OP_SIGN
        < (Instructions k).indexOf Instruction.OP_SIGN_VALIDATE := by
  cases k with
  | install => exact absurd rfl hk
  | setup => decide
  | uninstall => decide
  | update => decide

theorem schedules_role_asymmetry_except_install_witness :
    (ProtocolKind.setup ≠ ProtocolKind.install)
    ∧ (Instruction.IO_WAIT ∉ AckInstructions ProtocolKind.setup
      ∧ Instruction.OP_SIGN_VALIDATE ∈ AckInstructions ProtocolKind.setup
      ∧ Instruction.OP_SIGN ∈ AckInstructions ProtocolKind.setup
      ∧ (AckInstructions ProtocolKind.setup).indexOf Instruction.OP_SIGN_VALIDATE
          < (AckInstructions ProtocolKind.setup).indexOf Instruction.OP_SIGN
      ∧ Instruction.OP_SIGN ∈ Instructions ProtocolKind.setup
      ∧ Instruction.OP_SIGN_VALIDATE ∈ Instructions ProtocolKind.setup
      ∧ (Instructions ProtocolKind.setup).indexOf Instruction.OP_SIGN
          < (Instructions ProtocolKind.setup).indexOf Instruction.OP_SIGN_VALIDATE) :=
  ⟨by decide, schedules_role_asymmetry_except_install ProtocolKind.setup (by decide)⟩

/-! ## Claims about the app-instance registry -/

/-- C6: `getOrCreateAppInstance` is idempotent against a cached entry:
a call with an already-registered id returns the previously created
record unchanged and ignores any hint supplied on the later call, and
get-or-create (including its post-fetch resume) never produces a
registry holding two records for the same id. -/
theorem getOrCreateAppInstance_cached_idempotent
    (apps : List (String × AppInstance)) (id : String) (app : AppInstance)
    (hcached : getKey apps id = some app) :
    (∀ info, getOrCreateAppInstance apps id info = GetOrCreateResult.done apps app)
    ∧ (∀ (id' : String) (info' : Option AppInstanceInfo)
        (apps' : List (String × AppInstance)) (a : AppInstance),
        (apps.map Prod.fst).Nodup →
        getOrCreateAppInstance apps id' info' = GetOrCreateResult.done apps' a →
        (apps'.map Prod.fst).Nodup)
    ∧ (∀ (id' : String) (newInfo : AppInstanceInfo),
        (apps.map Prod.fst).Nodup →
        (((getOrCreateAppInstanceResume apps id' newInfo).1).map Prod.fst).Nodup) := by
  refine ⟨?_, ?_, ?_⟩
  · intro info
    simp [getOrCreateAppInstance, hcached]
  · intro id' info' apps' a hnd heq
    cases h : getKey apps id' with
    | some b =>
      simp only [getOrCreateAppInstance, h] at heq
      injection heq with h1 h2
      exact h1 ▸ hnd
    | none =>
      cases info' with
      | none =>
        simp only [getOrCreateAppInstance, h] at heq
        exact GetOrCreateResult.noConfusion heq
      | some i =>
        simp only [getOrCreateAppInstance, h] at heq
        injection heq with h1 h2
        exact h1 ▸ keys_setKey_nodup apps id' (AppInstance.mk i) hnd
  · intro id' newInfo hnd
    exact keys_setKey_nodup apps id' (AppInstance.mk newInfo) hnd

theorem getOrCreateAppInstance_cached_idempotent_witness :
    (getKey [("0xA", AppInstance.mk (AppInstanceInfo.mk "0xA" "d"))] "0xA"
        = some (AppInstance.mk (AppInstanceInfo.mk "0xA" "d")))
    ∧ (∀ info, getOrCreateAppInstance
          [("0xA", AppInstance.mk (AppInstanceInfo.mk "0xA" "d"))] "0xA" info
        = GetOrCreateResult.done [("0xA", AppInstance.mk (AppInstanceInfo.mk "0xA" "d"))]
            (AppInstance.mk (AppInstanceInfo.mk "0xA" "d"))) :=
  ⟨by decide,
   (getOrCreateAppInstance_cached_idempotent
     [("0xA", AppInstance.mk (AppInstanceInfo.mk "0xA" "d"))] "0xA"
     (AppInstance.mk (AppInstanceInfo.mk "0xA" "d")) (by decide)).1⟩

/-- C7: handling a REJECT_INSTALL event whose payload embeds full
app-instance details registers the instance via get-or-create keyed by
its identityHash and republishes a REJECT_INSTALL event whose
appInstance carries that identityHash, while settling nothing and
sending nothing through the node (zero details-fetch calls).  The
hypothesis states the registry well-formedness invariant that every
cached record is keyed by its own identityHash. -/
theorem handleRejectInstallEvent_uses_supplied_details
    (st : ProviderState) (info : AppInstanceInfo)
    (hwf : ∀ k a, getKey st.appInstances k = some a → a.info.identityHash = k) :
    ∃ app : AppInstance,
      (handleRejectInstallEvent st (RData.rejectInstallEventData info)).2
          = { emits := [(RType.event EventName.REJECT_INSTALL,
              EmitValue.appEvent (RType.event EventName.REJECT_INSTALL) app)] }
      ∧ app.info.identityHash = info.identityHash
      ∧ getKey (handleRejectInstallEvent st
          (RData.rejectInstallEventData info)).1.appInstances info.identityHash = some app
      ∧ (handleRejectInstallEvent st
          (RData.rejectInstallEventData info)).1.requestListeners = st.requestListeners := by
  cases h : getKey st.appInstances info.identityHash with
  | some a =>
    refine ⟨a, ?_, hwf _ _ h, ?_, ?_⟩
    · simp [handleRejectInstallEvent, getOrCreateAppInstance, h]
    · simp [handleRejectInstallEvent, getOrCreateAppInstance, h]
    · simp [handleRejectInstallEvent, getOrCreateAppInstance, h]
  | none =>
    refine ⟨AppInstance.mk info, ?_, rfl, ?_, ?_⟩
    · simp [handleRejectInstallEvent, getOrCreateAppInstance, h]
    · simp only [handleRejectInstallEvent, getOrCreateAppInstance, h]
      exact getKey_setKey_self _ _ _
    · simp [handleRejectInstallEvent, getOrCreateAppInstance, h]

theorem handleRejectInstallEvent_uses_supplied_details_witness :
    (∀ k a, getKey (ProviderState.mk [] []).appInstances k = some a
        → a.info.identityHash = k)
    ∧ ∃ app : AppInstance,
      (handleRejectInstallEvent (ProviderState.mk [] [])
          (RData.rejectInstallEventData (AppInstanceInfo.mk "0xABC" "d"))).2
          = { emits := [(RType.event EventName.REJECT_INSTALL,
              EmitValue.appEvent (RType.event EventName.REJECT_INSTALL) app)] }
      ∧ app.info.identityHash = (AppInstanceInfo.mk "0xABC" "d").identityHash
      ∧ getKey (handleRejectInstallEvent (ProviderState.mk [] [])
          (RData.rejectInstallEventData (AppInstanceInfo.mk "0xABC" "d"))).1.appInstances
            (AppInstanceInfo.mk "0xABC" "d").identityHash = some app
      ∧ (handleRejectInstallEvent (ProviderState.mk [] [])
          (RData.rejectInstallEventData (AppInstanceInfo.mk "0xABC" "d"))).1.requestListeners
        = (ProviderState.mk [] []).requestListeners :=
  ⟨fun _ a hgk => Option.noConfusion hgk,
   handleRejectInstallEvent_uses_supplied_details (ProviderState.mk [] [])
     (AppInstanceInfo.mk "0xABC" "d") (fun _ a hgk => Option.noConfusion hgk)⟩

/-! ## Claims about the correlation engine -/

/-- C1: for every call issued through `callRawNodeMethod` (with a fresh
request id, as wall-clock ids are per call), across any interleaving of
subsequent turns that does not reuse that id, the number of settlements
of the call's promise never exceeds one, the call is settled exactly
when its entry has been removed from the pending table (removal is the
sole double-settle guard), and once the call's armed timeout has fired
the call has settled exactly once (never zero, never two). -/
theorem callRawNodeMethod_settles_exactly_once
    (st0 : ProviderState) (m : MethodName) (p : Params) (rid : Nat) (tr : List Action)
    (hfresh : getKey st0.requestListeners rid = none)
    (hclean : ∀ a ∈ tr, ridIntro rid a = false) :
    settlesFor (run (callRawNodeMethod st0 (some m) p rid
        Continuation.userCall).1 tr).2 rid ≤ 1
    ∧ ((getKey (run (callRawNodeMethod st0 (some m) p rid
          Continuation.userCall).1 tr).1.requestListeners rid).isSome
        ↔ settlesFor (run (callRawNodeMethod st0 (some m) p rid
            Continuation.userCall).1 tr).2 rid = 0)
    ∧ (Action.timeoutFire rid ∈ tr →
        settlesFor (run (callRawNodeMethod st0 (some m) p rid
          Continuation.userCall).1 tr).2 rid = 1) := by
  have hstart : CallInv rid
      { methodName := m, request := { method := m, params := p, id := rid }
        cont := Continuation.userCall }
      (callRawNodeMethod st0 (some m) p rid Continuation.userCall).1 0 := by
    left
    refine ⟨?_, rfl⟩
    simp only [callRawNodeMethod]
    exact getKey_setKey_self _ _ _
  have hinv := run_CallInv tr hstart hclean
  rw [Nat.zero_add] at hinv
  refine ⟨?_, ?_, ?_⟩
  · rcases hinv with ⟨_, hn⟩ | ⟨_, hn⟩ <;> omega
  · rcases hinv with ⟨hs, hn⟩ | ⟨hs, hn⟩
    · rw [hs, hn]; simp
    · rw [hs, hn]; simp
  · intro hmem
    have hnone : getKey (run (callRawNodeMethod st0 (some m) p rid
        Continuation.userCall).1 tr).1.requestListeners rid = none :=
      run_timeoutFire_mem tr hmem hclean
    rcases hinv with ⟨hs, hn⟩ | ⟨hs, hn⟩
    · rw [hnone] at hs; cases hs
    · exact hn

theorem callRawNodeMethod_settles_exactly_once_witness :
    (getKey (ProviderState.mk [] []).requestListeners 1 = none)
    ∧ (∀ a ∈ [Action.timeoutFire 1], ridIntro 1 a = false)
    ∧ (settlesFor (run (callRawNodeMethod (ProviderState.mk [] [])
          (some MethodName.DEPOSIT) "" 1 Continuation.userCall).1
          [Action.timeoutFire 1]).2 1 ≤ 1
      ∧ ((getKey (run (callRawNodeMethod (ProviderState.mk [] [])
            (some MethodName.DEPOSIT) "" 1 Continuation.userCall).1
            [Action.timeoutFire 1]).1.requestListeners 1).isSome
          ↔ settlesFor (run (callRawNodeMethod (ProviderState.mk [] [])
              (some MethodName.DEPOSIT) "" 1 Continuation.userCall).1
              [Action.timeoutFire 1]).2 1 = 0)
      ∧ (Action.timeoutFire 1 ∈ [Action.timeoutFire 1] →
          settlesFor (run (callRawNodeMethod (ProviderState.mk [] [])
            (some MethodName.DEPOSIT) "" 1 Continuation.userCall).1
            [Action.timeoutFire 1]).2 1 = 1)) :=
  ⟨rfl, by decide,
   callRawNodeMethod_settles_exactly_once (ProviderState.mk [] [])
     MethodName.DEPOSIT "" 1 [Action.timeoutFire 1] rfl (by decide)⟩

/-- C2: if no settlement of a call has occurred by the time its
(30000 ms) timeout fires, the timer rejects the call's promise with a
`request_timeout` error whose message carries the original serialized
request, and removes the pending entry. -/
theorem request_timeout_rejects_with_original_request
    (st0 : ProviderState) (m : MethodName) (p : Params) (rid : Nat) (tr : List Action)
    (hclean : ∀ a ∈ tr, ridIntro rid a = false)
    (hnoresp : settlesFor (run (callRawNodeMethod st0 (some m) p rid
        Continuation.userCall).1 tr).2 rid = 0) :
    NODE_REQUEST_TIMEOUT = 30000
    ∧ (requestTimeoutFire (run (callRawNodeMethod st0 (some m) p rid
          Continuation.userCall).1 tr).1 rid).2
        = { settles := [(rid, SettleValue.reject (RejectValue.plain
            { rtype := RType.error
              data := RData.errorData "request_timeout"
                (some (ErrMessage.timedOut
                  { method := m, params := p, id := rid })) }))] }
    ∧ getKey (requestTimeoutFire (run (callRawNodeMethod st0 (some m) p rid
          Continuation.userCall).1 tr).1 rid).1.requestListeners rid = none := by
  have hstart : CallInv rid
      { methodName := m, request := { method := m, params := p, id := rid }
        cont := Continuation.userCall }
      (callRawNodeMethod st0 (some m) p rid Continuation.userCall).1 0 := by
    left
    refine ⟨?_, rfl⟩
    simp only [callRawNodeMethod]
    exact getKey_setKey_self _ _ _
  have hinv := run_CallInv tr hstart hclean
  rw [Nat.zero_add] at hinv
  have hlive : getKey (run (callRawNodeMethod st0 (some m) p rid
      Continuation.userCall).1 tr).1.requestListeners rid
      = some { methodName := m, request := { method := m, params := p, id := rid }
               cont := Continuation.userCall } := by
    rcases hinv with ⟨hs, _⟩ | ⟨_, hn⟩
    · exact hs
    · rw [hnoresp] at hn; cases hn
  refine ⟨rfl, ?_, ?_⟩
  · simp [requestTimeoutFire, hlive]
  · simp only [requestTimeoutFire, hlive]
    exact getKey_delKey_self _ _

theorem request_timeout_rejects_with_original_request_witness :
    (∀ a ∈ ([] : List Action), ridIntro 1 a = false)
    ∧ (settlesFor (run (callRawNodeMethod (ProviderState.mk [] [])
        (some MethodName.DEPOSIT) "xyz" 1 Continuation.userCall).1 []).2 1 = 0)
    ∧ (NODE_REQUEST_TIMEOUT = 30000
      ∧ (requestTimeoutFire (run (callRawNodeMethod (ProviderState.mk [] [])
            (some MethodName.DEPOSIT) "xyz" 1 Continuation.userCall).1 []).1 1).2
          = { settles := [(1, SettleValue.reject (RejectValue.plain
              { rtype := RType.error
                data := RData.errorData "request_timeout"
                  (some (ErrMessage.timedOut
                    { method := MethodName.DEPOSIT, params := "xyz", id := 1 })) }))] }
      ∧ getKey (requestTimeoutFire (run (callRawNodeMethod (ProviderState.mk [] [])
            (some MethodName.DEPOSIT) "xyz" 1 Continuation.userCall).1 []).1 1).1.requestListeners 1
          = none) :=
  ⟨by decide, rfl,
   request_timeout_rejects_with_original_request (ProviderState.mk [] [])
     MethodName.DEPOSIT "xyz" 1 [] (by decide) rfl⟩

/-- C3: delivering to a still-pending call a correlated response whose
result-type tag differs from the requested method name and is not the
error tag settles that call with exactly one rejection carrying an
`unexpected_message_type` error — in particular the call is never
resolved with that response's payload. -/
theorem mismatched_response_type_rejects
    (st0 : ProviderState) (m : MethodName) (p : Params) (rid fr : Nat)
    (tr : List Action) (t : RType) (d : RData)
    (hclean : ∀ a ∈ tr, ridIntro rid a = false)
    (hnoresp : settlesFor (run (callRawNodeMethod st0 (some m) p rid
        Continuation.userCall).1 tr).2 rid = 0)
    (hterr : t ≠ RType.error) (htm : t ≠ RType.method m) :
    (onNodeMessage (run (callRawNodeMethod st0 (some m) p rid
        Continuation.userCall).1 tr).1 fr
        (InboundMessage.rpc { id := some rid, result := { rtype := t, data := d } })).2.settles
      = [(rid, SettleValue.reject (RejectValue.response
          { rtype := RType.error
            data := RData.errorData "unexpected_message_type"
              (some (ErrMessage.unexpectedResponseType m t)) } rid))] := by
  have hstart : CallInv rid
      { methodName := m, request := { method := m, params := p, id := rid }
        cont := Continuation.userCall }
      (callRawNodeMethod st0 (some m) p rid Continuation.userCall).1 0 := by
    left
    refine ⟨?_, rfl⟩
    simp only [callRawNodeMethod]
    exact getKey_setKey_self _ _ _
  have hinv := run_CallInv tr hstart hclean
  rw [Nat.zero_add] at hinv
  have hlive : getKey (run (callRawNodeMethod st0 (some m) p rid
      Continuation.userCall).1 tr).1.requestListeners rid
      = some { methodName := m, request := { method := m, params := p, id := rid }
               cont := Continuation.userCall } := by
    rcases hinv with ⟨hs, _⟩ | ⟨_, hn⟩
    · exact hs
    · rw [hnoresp] at hn; cases hn
  have hhit := handleNodeMethodResponse_hit
    (run (callRawNodeMethod st0 (some m) p rid Continuation.userCall).1 tr).1
    { id := some rid, result := { rtype := t, data := d } } rid
    { methodName := m, request := { method := m, params := p, id := rid }
      cont := Continuation.userCall } rfl hlive
  simp only [onNodeMessage]
  rw [if_neg hterr]
  rw [hhit]
  simp [requestListener, Effects.append, runContinuation_settles, hterr, htm]

theorem mismatched_response_type_rejects_witness :
    (∀ a ∈ ([] : List Action), ridIntro 1 a = false)
    ∧ (settlesFor (run (callRawNodeMethod (ProviderState.mk [] [])
        (some MethodName.DEPOSIT) "" 1 Continuation.userCall).1 []).2 1 = 0)
    ∧ (RType.method MethodName.INSTALL ≠ RType.error)
    ∧ (RType.method MethodName.INSTALL ≠ RType.method MethodName.DEPOSIT)
    ∧ (onNodeMessage (run (callRawNodeMethod (ProviderState.mk [] [])
          (some MethodName.DEPOSIT) "" 1 Continuation.userCall).1 []).1 2
        (InboundMessage.rpc
          { id := some 1
            result := { rtype := RType.method MethodName.INSTALL, data := RData.other "" } })).2.settles
      = [(1, SettleValue.reject (RejectValue.response
          { rtype := RType.error
            data := RData.errorData "unexpected_message_type"
              (some (ErrMessage.unexpectedResponseType MethodName.DEPOSIT
                (RType.method MethodName.INSTALL))) } 1))] :=
  ⟨by decide, rfl, by decide, by decide,
   mismatched_response_type_rejects (ProviderState.mk [] []) MethodName.DEPOSIT "" 1 2 []
     (RType.method MethodName.INSTALL) (RData.other "") (by decide) rfl
     (by decide) (by decide)⟩

/-- Every error-tagged message is emitted once on the event stream under
its own (error) type tag, whatever the settle path did. -/
theorem handleNodeError_emits (st : ProviderState) (m : JsonRpcMsg)
    (herr : m.result.rtype = RType.error) :
    (handleNodeError st m).2.emits = [(m.result.rtype, EmitValue.result m.result)] := by
  cases hid : m.id with
  | none => simp [handleNodeError, hid, Effects.append]
  | some r =>
    by_cases h2 : r = 0
    · simp [handleNodeError, hid, h2, Effects.append]
    · cases h3 : getKey st.requestListeners r with
      | none => simp [handleNodeError, hid, h2, h3, Effects.append]
      | some e =>
        simp [handleNodeError, hid, h2, h3, Effects.append, requestListener, herr,
          runContinuation_reject]

/-- C4: a correlated response whose id matches no pending entry settles
nothing, leaves the provider state untouched (processing continues
normally), and publishes a structured error event with errorName
`orphaned_response` under the ERROR topic on the general event stream. -/
theorem orphaned_response_emits_error_event
    (st : ProviderState) (fr i : Nat) (t : RType) (d : RData)
    (hmiss : getKey st.requestListeners i = none) (ht : t ≠ RType.error) :
    onNodeMessage st fr
        (InboundMessage.rpc { id := some i, result := { rtype := t, data := d } })
      = (st, { emits := [(RType.error, EmitValue.result
          { rtype := RType.error
            data := RData.errorData "orphaned_response"
              (some (ErrMessage.noInflightRequest (some i) t)) })] }) := by
  simp only [onNodeMessage]
  rw [if_neg ht]
  exact handleNodeMethodResponse_orphan st
    { id := some i, result := { rtype := t, data := d } } i rfl hmiss

theorem orphaned_response_emits_error_event_witness :
    (getKey (ProviderState.mk [] []).requestListeners 5 = none)
    ∧ (RType.method MethodName.DEPOSIT ≠ RType.error)
    ∧ onNodeMessage (ProviderState.mk [] []) 9
        (InboundMessage.rpc
          { id := some 5
            result := { rtype := RType.method MethodName.DEPOSIT, data := RData.other "" } })
      = (ProviderState.mk [] [], { emits := [(RType.error, EmitValue.result
          { rtype := RType.error
            data := RData.errorData "orphaned_response"
              (some (ErrMessage.noInflightRequest (some 5)
                (RType.method MethodName.DEPOSIT))) })] }) :=
  ⟨rfl, by decide,
   orphaned_response_emits_error_event (ProviderState.mk [] []) 9 5
     (RType.method MethodName.DEPOSIT) (RData.other "") rfl (by decide)⟩

/-- C5: an inbound error-tagged message with a live correlated pending
request invokes that call's failure path (a single rejection carrying
the error retagged as an ERROR response) and removes the pending entry;
and every error-tagged message — whether or not any call was awaiting
it — is republished once on the general event stream under the ERROR
topic. -/
theorem error_tagged_message_fails_call_and_republishes
    (st : ProviderState) (fr i : Nat) (d : RData) (e : PendingEntry)
    (hi : i ≠ 0) (hlive : getKey st.requestListeners i = some e) :
    (onNodeMessage st fr
        (InboundMessage.rpc { id := some i, result := { rtype := RType.error, data := d } })).2.settles
        = [(i, SettleValue.reject (RejectValue.response
            { rtype := RType.error, data := d } i))]
    ∧ getKey (onNodeMessage st fr
        (InboundMessage.rpc
          { id := some i, result := { rtype := RType.error, data := d } })).1.requestListeners i
        = none
    ∧ ∀ (st' : ProviderState) (fr' : Nat) (oid : Option Nat) (d' : RData),
        (onNodeMessage st' fr'
            (InboundMessage.rpc { id := oid, result := { rtype := RType.error, data := d' } })).2.emits
          = [(RType.error, EmitValue.result { rtype := RType.error, data := d' })] := by
  have hhit := handleNodeError_hit st
    { id := some i, result := { rtype := RType.error, data := d } } i e rfl hi hlive
  refine ⟨?_, ?_, ?_⟩
  · simp only [onNodeMessage, if_pos]
    rw [hhit]
    simp [requestListener, Effects.append, runContinuation_settles]
  · simp only [onNodeMessage, if_pos]
    rw [hhit, runContinuation_requestListeners]
    exact getKey_delKey_self _ _
  · intro st' fr' oid d'
    simp only [onNodeMessage, if_pos]
    exact handleNodeError_emits st'
      { id := oid, result := { rtype := RType.error, data := d' } } rfl

theorem error_tagged_message_fails_call_and_republishes_witness :
    ((5 : Nat) ≠ 0)
    ∧ (getKey (ProviderState.mk
        [(5, PendingEntry.mk MethodName.DEPOSIT (Request.mk MethodName.DEPOSIT "" 5)
          Continuation.userCall)] []).requestListeners 5
        = some (PendingEntry.mk MethodName.DEPOSIT (Request.mk MethodName.DEPOSIT "" 5)
            Continuation.userCall))
    ∧ ((onNodeMessage (ProviderState.mk
          [(5, PendingEntry.mk MethodName.DEPOSIT (Request.mk MethodName.DEPOSIT "" 5)
            Continuation.userCall)] []) 9
          (InboundMessage.rpc
            { id := some 5
              result := { rtype := RType.error, data := RData.other "boom" } })).2.settles
        = [(5, SettleValue.reject (RejectValue.response
            { rtype := RType.error, data := RData.other "boom" } 5))])
    ∧ (onNodeMessage (ProviderState.mk [] []) 0
        (InboundMessage.rpc
          { id := none
            result := { rtype := RType.error, data := RData.other "solo" } })).2.emits
      = [(RType.error, EmitValue.result
          { rtype := RType.error, data := RData.other "solo" })] :=
  ⟨by decide, by decide,
   (error_tagged_message_fails_call_and_republishes
     (ProviderState.mk
       [(5, PendingEntry.mk MethodName.DEPOSIT (Request.mk MethodName.DEPOSIT "" 5)
         Continuation.userCall)] []) 9 5 (RData.other "boom")
     (PendingEntry.mk MethodName.DEPOSIT (Request.mk MethodName.DEPOSIT "" 5)
       Continuation.userCall) (by decide) (by decide)).1,
   (error_tagged_message_fails_call_and_republishes
     (ProviderState.mk
       [(5, PendingEntry.mk MethodName.DEPOSIT (Request.mk MethodName.DEPOSIT "" 5)
         Continuation.userCall)] []) 9 5 (RData.other "boom")
     (PendingEntry.mk MethodName.DEPOSIT (Request.mk MethodName.DEPOSIT "" 5)
       Continuation.userCall) (by decide) (by decide)).2.2
     (ProviderState.mk [] []) 0 none (RData.other "solo")⟩

/-- C9 counterexample: a call whose method name fails to resolve settles
nothing at the call itself and registers neither a listener nor a
pending entry (so no later settlement is possible), contradicting the
claim that the call's promise settles with a failure; it also sends
nothing, and it emits a synthetic error event instead. -/
theorem malformed_call_settles_nothing_and_sends_nothing :
    (callRawNodeMethod (ProviderState.mk [] []) none "0x" 1 Continuation.userCall).2.settles = []
    ∧ (callRawNodeMethod (ProviderState.mk [] []) none "0x" 1 Continuation.userCall).2.sends = []
    ∧ (callRawNodeMethod (ProviderState.mk [] []) none "0x" 1
        Continuation.userCall).1.requestListeners = []
    ∧ (callRawNodeMethod (ProviderState.mk [] []) none "0x" 1 Continuation.userCall).2.emits
      = [(RType.error, EmitValue.result
          { rtype := RType.error, data := RData.errorData "unexpected_event_type" none })] := by
  decide

/-- C9 (amended): if the method name of a call cannot be resolved at
request-build time, nothing is sent through the transport for that call
and no pending entry is registered; the failure is reported only as a
synthetic `unexpected_event_type` error event on the general event
stream, and the call's promise is never settled — not by this turn and
not by any later turn. -/
theorem malformed_request_emits_error_and_never_settles
    (st0 : ProviderState) (p : Params) (rid : Nat) (tr : List Action)
    (hfresh : getKey st0.requestListeners rid = none)
    (hclean : ∀ a ∈ tr, ridIntro rid a = false) :
    callRawNodeMethod st0 none p rid Continuation.userCall
      = (st0, { emits := [(RType.error, EmitValue.result
          { rtype := RType.error
            data := RData.errorData "unexpected_event_type" none })] })
    ∧ settlesFor (run st0 tr).2 rid = 0
    ∧ getKey (run st0 tr).1.requestListeners rid = none := by
  refine ⟨?_, (run_absent tr hfresh hclean).2, (run_absent tr hfresh hclean).1⟩
  have hmiss := handleNodeError_miss st0
    { id := some rid
      result := { rtype := RType.error, data := RData.errorData "unexpected_event_type" none } }
    (by
      intro r' hr h0
      injection hr with hh
      exact hh ▸ hfresh)
  exact hmiss

theorem malformed_request_emits_error_and_never_settles_witness :
    (getKey (ProviderState.mk [] []).requestListeners 7 = none)
    ∧ (∀ a ∈ [Action.timeoutFire 7], ridIntro 7 a = false)
    ∧ (callRawNodeMethod (ProviderState.mk [] []) none "p" 7 Continuation.userCall
        = (ProviderState.mk [] [], { emits := [(RType.error, EmitValue.result
            { rtype := RType.error
              data := RData.errorData "unexpected_event_type" none })] })
      ∧ settlesFor (run (ProviderState.mk [] []) [Action.timeoutFire 7]).2 7 = 0
      ∧ getKey (run (ProviderState.mk [] []) [Action.timeoutFire 7]).1.requestListeners 7
          = none) :=
  ⟨rfl, by decide,
   malformed_request_emits_error_and_never_settles (ProviderState.mk [] []) "p" 7
     [Action.timeoutFire 7] rfl (by decide)⟩
